import Mathlib

/-!
Verification of the access-control and flow-control gateway of the chat-agent
repository: the sliding-window rate limiter with a global degraded flag
(src/rate_limiter.py), authentication with per-(username, ip) lockout
(src/auth.py), bearer-token idle-timeout validation (src/tokens.py), the
confirmation-gated tool-invocation pipeline (src/tools.py) and the LLM call
wrapper (src/llm.py).  Timestamps are modelled as integers (seconds); mutable
in-memory and database state is passed explicitly.
-/

namespace ChatAgent

/-! ## Rate limiter (src/rate_limiter.py)

`RateLimiter` holds per-user operation timestamps (oldest first, mirroring the
deque), a per-user concurrency counter, and the process-wide degraded flag.
Absent users map to the empty deque / zero counter, mirroring `defaultdict`. -/

structure RateLimiter where
  max_ops : Nat
  window_secs : Int
  max_concurrent : Nat
  global_degraded : Bool
  ops : String → List Int
  concurrent : String → Nat

/-- `_prune`: pop timestamps from the front of the deque while the head is
`≤ cutoff` (`cutoff = now - window`).  Stops at the first surviving entry,
exactly like the `while ops and ops[0] <= cutoff: ops.popleft()` loop. -/
def pruneOps (cutoff : Int) : List Int → List Int
  | [] => []
  | t :: rest => if t ≤ cutoff then pruneOps cutoff rest else t :: rest

/-- Replace one user's operation deque (the in-place deque mutation). -/
def withOps (rl : RateLimiter) (user : String) (l : List Int) : RateLimiter :=
  { rl with ops := Function.update rl.ops user l }

/-- `RateLimiter.record_operation(user, now)`: hard stop when degraded, else
prune this user's window, append `now`, and trip the global breaker when the
count exceeds `max_ops`.  Returns the boolean result and the new state. -/
def record_operation (rl : RateLimiter) (user : String) (now : Int) :
    Bool × RateLimiter :=
  if rl.global_degraded then (false, rl)
  else
    let newOps := pruneOps (now - rl.window_secs) (rl.ops user) ++ [now]
    if newOps.length > rl.max_ops then
      (false, { withOps rl user newOps with global_degraded := true })
    else
      (true, withOps rl user newOps)

/-- `RateLimiter.start_request(user, is_login)`. -/
def start_request (rl : RateLimiter) (user : String) (is_login : Bool) :
    Bool × RateLimiter :=
  if rl.global_degraded && !is_login then (false, rl)
  else if rl.concurrent user ≥ rl.max_concurrent then (false, rl)
  else
    let c := Function.update rl.concurrent user (rl.concurrent user + 1)
    (true, { rl with concurrent := c })

/-- `RateLimiter.finish_request(user)`: decrement, floored at zero. -/
def finish_request (rl : RateLimiter) (user : String) : RateLimiter :=
  if rl.concurrent user > 0 then
    let c := Function.update rl.concurrent user (rl.concurrent user - 1)
    { rl with concurrent := c }
  else rl

/-- Run `record_operation` for one user over a list of call timestamps,
collecting the returned booleans and threading the state. -/
def runOps (rl : RateLimiter) (user : String) : List Int → List Bool × RateLimiter
  | [] => ([], rl)
  | t :: ts =>
    let r := record_operation rl user t
    let rest := runOps r.2 user ts
    (r.1 :: rest.1, rest.2)

/-! ### Lemmas about pruning -/

/-- Every timestamp surviving `pruneOps` of a sorted deque is beyond the cutoff. -/
lemma mem_pruneOps_gt (cutoff : Int) :
    ∀ l : List Int, l.Pairwise (· ≤ ·) → ∀ t ∈ pruneOps cutoff l, cutoff < t := by
  intro l
  induction l with
  | nil => intro _ t ht; simp [pruneOps] at ht
  | cons a rest ih =>
    intro hs t ht
    rw [List.pairwise_cons] at hs
    by_cases ha : a ≤ cutoff
    · rw [pruneOps, if_pos ha] at ht
      exact ih hs.2 t ht
    · rw [pruneOps, if_neg ha] at ht
      push_neg at ha
      rcases List.mem_cons.mp ht with h | h
      · exact h ▸ ha
      · exact lt_of_lt_of_le ha (hs.1 t h)

/-- A deque with no prunable entries is left unchanged by `pruneOps`. -/
lemma pruneOps_eq_self (cutoff : Int) :
    ∀ l : List Int, (∀ t ∈ l, cutoff < t) → pruneOps cutoff l = l := by
  intro l
  induction l with
  | nil => intro _; rfl
  | cons a rest _ =>
    intro h
    have ha : ¬ a ≤ cutoff := not_le.mpr (h a (List.mem_cons_self a rest))
    rw [pruneOps, if_neg ha]

/-- A degraded limiter rejects every operation and mutates nothing. -/
lemma record_operation_degraded (rl : RateLimiter) (u : String) (t : Int)
    (h : rl.global_degraded = true) : record_operation rl u t = (false, rl) := by
  rw [record_operation, if_pos h]

/-- Helper for C1: starting from per-user deque `acc` with every pair of
timestamps (old and new) inside one window, running one more operation than
the remaining budget returns `true` until the last call, which returns `false`
and trips the global breaker. -/
lemma runOps_trips_breaker :
    ∀ (ts : List Int) (rl : RateLimiter) (user : String) (acc : List Int),
    rl.global_degraded = false →
    rl.ops user = acc →
    (∀ a ∈ acc ++ ts, ∀ b ∈ acc ++ ts, a - b < rl.window_secs) →
    acc.length + ts.length = rl.max_ops + 1 →
    ts ≠ [] →
    (runOps rl user ts).1 = List.replicate (ts.length - 1) true ++ [false] ∧
    (runOps rl user ts).2.global_degraded = true := by
  intro ts
  induction ts with
  | nil => intro _ _ _ _ _ _ _ h; exact absurd rfl h
  | cons t ts ih =>
    intro rl user acc hdeg hops hwin hlen _
    have hnd : ¬ (rl.global_degraded = true) := by simp [hdeg]
    have hmem_t : t ∈ acc ++ t :: ts := by simp
    have hprune : pruneOps (t - rl.window_secs) acc = acc := by
      apply pruneOps_eq_self
      intro a ha
      have := hwin t hmem_t a (by simp [ha])
      omega
    have hlen2 : acc.length + ts.length + 1 = rl.max_ops + 1 := by
      simp only [List.length_cons] at hlen
      omega
    by_cases hts : ts = []
    · subst hts
      have hfull : acc.length = rl.max_ops := by simpa using hlen2
      have hover : (pruneOps (t - rl.window_secs) (rl.ops user) ++ [t]).length >
          rl.max_ops := by
        rw [hops, hprune]
        simp [hfull]
      have hstep : record_operation rl user t =
          (false, { withOps rl user (pruneOps (t - rl.window_secs) (rl.ops user)
            ++ [t]) with global_degraded := true }) := by
        rw [record_operation, if_neg hnd]
        simp only [if_pos hover]
      constructor
      · simp [runOps, hstep]
      · simp [runOps, hstep]
    · have hts_len : 0 < ts.length := List.length_pos.mpr hts
      have hlt : ¬ ((pruneOps (t - rl.window_secs) (rl.ops user) ++ [t]).length >
          rl.max_ops) := by
        rw [hops, hprune]
        simp only [List.length_append, List.length_cons, List.length_nil]
        omega
      have hstep : record_operation rl user t =
          (true, withOps rl user (pruneOps (t - rl.window_secs) (rl.ops user)
            ++ [t])) := by
        rw [record_operation, if_neg hnd]
        simp only [if_neg hlt]
      set rl1 : RateLimiter := withOps rl user (pruneOps (t - rl.window_secs)
        (rl.ops user) ++ [t]) with hrl1
      have hops1 : rl1.ops user = acc ++ [t] := by
        simp [hrl1, withOps, hops, hprune]
      have hwin1 : ∀ a ∈ (acc ++ [t]) ++ ts, ∀ b ∈ (acc ++ [t]) ++ ts,
          a - b < rl1.window_secs := by
        intro a ha b hb
        have hsub : ∀ x, x ∈ (acc ++ [t]) ++ ts → x ∈ acc ++ t :: ts := by
          intro x hx
          simp only [List.mem_append, List.mem_cons, List.mem_singleton] at hx ⊢
          tauto
        have hw : rl1.window_secs = rl.window_secs := by simp [hrl1, withOps]
        rw [hw]
        exact hwin a (hsub a ha) b (hsub b hb)
      have hlen1 : (acc ++ [t]).length + ts.length = rl1.max_ops + 1 := by
        have hm : rl1.max_ops = rl.max_ops := by simp [hrl1, withOps]
        rw [hm]
        simp only [List.length_append, List.length_cons, List.length_nil]
        omega
      have hdeg1 : rl1.global_degraded = false := by simp [hrl1, withOps, hdeg]
      have hih := ih rl1 user (acc ++ [t]) hdeg1 hops1 hwin1 hlen1 hts
      have hrun : runOps rl user (t :: ts) =
          (true :: (runOps rl1 user ts).1, (runOps rl1 user ts).2) := by
        rw [runOps, hstep]
      refine ⟨?_, by rw [hrun]; exact hih.2⟩
      rw [hrun, hih.1]
      have hrep : (t :: ts).length - 1 = (ts.length - 1) + 1 := by
        simp only [List.length_cons]
        omega
      rw [hrep, List.replicate_succ]
      simp

/-- Claim C1: from a non-degraded limiter with a fresh per-user deque,
`max_ops + 1` operations inside one window return `true` on the first
`max_ops` calls and `false` on the last, which sets `global_degraded`; and a
degraded limiter rejects every operation for any user with no state change. -/
theorem C1_burst_trips_global_breaker (rl : RateLimiter) (user : String)
    (ts : List Int)
    (hdeg : rl.global_degraded = false)
    (hops : rl.ops user = [])
    (hlen : ts.length = rl.max_ops + 1)
    (hwin : ∀ a ∈ ts, ∀ b ∈ ts, a - b < rl.window_secs) :
    (runOps rl user ts).1 = List.replicate rl.max_ops true ++ [false] ∧
    (runOps rl user ts).2.global_degraded = true ∧
    (∀ (rl2 : RateLimiter) (u : String) (t : Int), rl2.global_degraded = true →
      record_operation rl2 u t = (false, rl2)) := by
  have hne : ts ≠ [] := by
    intro h
    rw [h] at hlen
    simp at hlen
  have h := runOps_trips_breaker ts rl user [] hdeg hops (by simpa using hwin)
    (by simpa using hlen) hne
  refine ⟨?_, h.2, fun rl2 u t h2 => record_operation_degraded rl2 u t h2⟩
  rw [h.1, hlen]
  simp

/-- Concrete instance of C1: `max_ops = 2`, three calls at times 0, 1, 2
inside the 60-second window. -/
def rlC1 : RateLimiter :=
  ⟨2, 60, 3, false, fun _ => [], fun _ => 0⟩

theorem C1_burst_trips_global_breaker_witness :
    (runOps rlC1 "alice" [0, 1, 2]).1 = List.replicate 2 true ++ [false] ∧
    (runOps rlC1 "alice" [0, 1, 2]).2.global_degraded = true :=
  ⟨(C1_burst_trips_global_breaker rlC1 "alice" [0, 1, 2] rfl rfl rfl
      (by decide)).1,
   (C1_burst_trips_global_breaker rlC1 "alice" [0, 1, 2] rfl rfl rfl
      (by decide)).2.1⟩

/-- Claim C5: an operation recorded at `t0` no longer counts once
`record_operation` runs strictly later than `t0 + window_secs`: it is pruned
from the deque before the new operation is counted, and the boolean result is
determined by the pruned count plus the new operation alone. -/
theorem C5_old_ops_pruned (rl : RateLimiter) (user : String) (now t0 : Int)
    (hdeg : rl.global_degraded = false)
    (hwin : 0 ≤ rl.window_secs)
    (hsorted : (rl.ops user).Pairwise (· ≤ ·))
    (ht0 : t0 ∈ rl.ops user)
    (hold : t0 + rl.window_secs < now) :
    t0 ∉ (record_operation rl user now).2.ops user ∧
    ((record_operation rl user now).1 = true ↔
      (pruneOps (now - rl.window_secs) (rl.ops user)).length + 1 ≤ rl.max_ops) := by
  have hnd : ¬ (rl.global_degraded = true) := by simp [hdeg]
  have hnotmem : t0 ∉ pruneOps (now - rl.window_secs) (rl.ops user) ++ [now] := by
    intro hmem
    rcases List.mem_append.mp hmem with h | h
    · have := mem_pruneOps_gt (now - rl.window_secs) (rl.ops user) hsorted t0 h
      omega
    · have : t0 = now := List.mem_singleton.mp h
      omega
  rw [record_operation, if_neg hnd]
  by_cases hover : (pruneOps (now - rl.window_secs) (rl.ops user) ++ [now]).length >
      rl.max_ops
  · rw [if_pos hover]
    refine ⟨by simpa [withOps] using hnotmem, ?_⟩
    simp only [List.length_append, List.length_cons, List.length_nil] at hover ⊢
    constructor
    · intro h; exact absurd h (by simp)
    · intro h; omega
  · rw [if_neg hover]
    refine ⟨by simpa [withOps] using hnotmem, ?_⟩
    simp only [List.length_append, List.length_cons, List.length_nil] at hover ⊢
    constructor
    · intro _; omega
    · intro _; trivial

/-- Concrete instance for C5: one operation at time 0, window 60 seconds,
re-evaluated at time 61. -/
def rlC5 : RateLimiter :=
  ⟨2, 60, 3, false, fun u => if u = "alice" then [0] else [], fun _ => 0⟩

theorem C5_old_ops_pruned_witness :
    (0 : Int) ∉ (record_operation rlC5 "alice" 61).2.ops "alice" ∧
    ((record_operation rlC5 "alice" 61).1 = true ↔
      (pruneOps (61 - rlC5.window_secs) (rlC5.ops "alice")).length + 1 ≤
        rlC5.max_ops) :=
  C5_old_ops_pruned rlC5 "alice" 61 0 rfl (by decide)
    (by simp [rlC5]) (by simp [rlC5]) (by decide)

/-- Claim C6: the per-user concurrency counter never exceeds
`max_concurrent` (and, being a natural number, never goes below zero): a
request started while the counter is full is rejected with no state change;
after one `finish_request` the next `start_request` succeeds; `start_request`
and `finish_request` preserve the upper bound; and `finish_request` on a
zero counter leaves the state untouched. -/
theorem C6_concurrency_bounds (rl : RateLimiter) (user : String)
    (hdeg : rl.global_degraded = false)
    (hfull : rl.concurrent user = rl.max_concurrent)
    (hpos : 0 < rl.max_concurrent) :
    (start_request rl user false).1 = false ∧
    (start_request rl user false).2 = rl ∧
    (start_request (finish_request rl user) user false).1 = true ∧
    (∀ (rl2 : RateLimiter) (u v : String) (login : Bool),
      rl2.concurrent u ≤ rl2.max_concurrent →
      (start_request rl2 v login).2.concurrent u ≤ rl2.max_concurrent) ∧
    (∀ (rl2 : RateLimiter) (u v : String),
      rl2.concurrent u ≤ rl2.max_concurrent →
      (finish_request rl2 v).concurrent u ≤ rl2.max_concurrent) ∧
    (∀ (rl2 : RateLimiter) (u : String), rl2.concurrent u = 0 →
      finish_request rl2 u = rl2) := by
  refine ⟨?_, ?_, ?_, ?_, ?_, ?_⟩
  · rw [start_request, if_neg (by simp [hdeg]), if_pos (le_of_eq hfull.symm)]
  · rw [start_request, if_neg (by simp [hdeg]), if_pos (le_of_eq hfull.symm)]
  · have hgt : rl.concurrent user > 0 := by omega
    rw [finish_request, if_pos hgt]
    rw [start_request]
    have h1 : ¬ ((false : Bool) = true) := by simp
    rw [if_neg (by simp [hdeg])]
    rw [if_neg (by simp [Function.update_same, hfull]; omega)]
  · intro rl2 u v login hle
    rw [start_request]
    split
    · exact hle
    · split
      · exact hle
      · by_cases huv : u = v
        · subst huv
          simp only [Function.update_same]
          omega
        · simp only [Function.update_noteq huv]
          exact hle
  · intro rl2 u v hle
    rw [finish_request]
    split
    · by_cases huv : u = v
      · subst huv
        simp only [Function.update_same]
        omega
      · simp only [Function.update_noteq huv]
        exact hle
    · exact hle
  · intro rl2 u h0
    rw [finish_request, if_neg (by omega)]

/-- Concrete instance for C6: three requests in flight with
`max_concurrent = 3`. -/
def rlC6 : RateLimiter :=
  ⟨50, 60, 3, false, fun _ => [], fun _ => 3⟩

theorem C6_concurrency_bounds_witness :
    (start_request rlC6 "bob" false).1 = false ∧
    (start_request (finish_request rlC6 "bob") "bob" false).1 = true :=
  ⟨(C6_concurrency_bounds rlC6 "bob" rfl rfl (by decide)).1,
   (C6_concurrency_bounds rlC6 "bob" rfl rfl (by decide)).2.2.1⟩

/-! ## Authentication with lockout (src/auth.py)

The credential store is modelled as two partial maps: users by username and
login-attempt rows by (username, ip).  The binder is a pure function; the
result records how many times it was invoked (0 or 1 in the source). -/

structure AuthUser where
  lockout_until : Option Int
deriving DecidableEq

structure LoginAttempt where
  count : Nat
  last_attempt_at : Int
deriving DecidableEq

structure AuthDB where
  users : String → Option AuthUser
  attempts : String × String → Option LoginAttempt

structure AuthResult where
  ok : Bool
  db : AuthDB
  binderCalls : Nat

/-- `_get_or_create_user(session, username)`. -/
def getOrCreateUser (db : AuthDB) (username : String) : AuthUser × AuthDB :=
  match db.users username with
  | some u => (u, db)
  | none =>
    let u : AuthUser := ⟨none⟩
    (u, { db with users := Function.update db.users username (some u) })

/-- Fetch-or-create of the `LoginAttempt` row for (username, ip), with
`count=0, last_attempt_at=now` on creation. -/
def getOrCreateAttempt (db : AuthDB) (username ip : String) (now : Int) :
    LoginAttempt × AuthDB :=
  match db.attempts (username, ip) with
  | some a => (a, db)
  | none =>
    let a : LoginAttempt := ⟨0, now⟩
    (a, { db with attempts := Function.update db.attempts (username, ip) (some a) })

/-- The `user.lockout_until and user.lockout_until > now` truthiness check. -/
def lockedOut (u : AuthUser) (now : Int) : Bool :=
  match u.lockout_until with
  | some lu => decide (lu > now)
  | none => false

/-- `authenticate_user_with_lockout`: allow-list check, lockout check (no
binder call), then binder; success clears the lockout and resets the pair's
count, failure increments it and sets `lockout_until = now + 15min` once the
count reaches 3. -/
def authenticate_user_with_lockout (authorized_users : List String)
    (username password ip : String) (binder : String → String → Bool)
    (db : AuthDB) (now : Int) : AuthResult :=
  if username ∈ authorized_users then
    let r1 := getOrCreateUser db username
    let user := r1.1
    let db1 := r1.2
    if lockedOut user now then ⟨false, db1, 0⟩
    else
      let r2 := getOrCreateAttempt db1 username ip now
      let attempt := r2.1
      let db2 := r2.2
      if binder username password then
        let u2 : AuthUser := { user with lockout_until := none }
        let a2 : LoginAttempt := { attempt with count := 0, last_attempt_at := now }
        let users2 := Function.update db2.users username (some u2)
        let attempts2 := Function.update db2.attempts (username, ip) (some a2)
        ⟨true, { users := users2, attempts := attempts2 }, 1⟩
      else
        let newCount := attempt.count + 1
        let u2 : AuthUser :=
          if newCount ≥ 3 then { user with lockout_until := some (now + 15 * 60) }
          else user
        let a2 : LoginAttempt := { attempt with count := newCount, last_attempt_at := now }
        let users2 := Function.update db2.users username (some u2)
        let attempts2 := Function.update db2.attempts (username, ip) (some a2)
        ⟨false, { users := users2, attempts := attempts2 }, 1⟩
  else ⟨false, db, 0⟩

/-- Sequence of `authenticate_user_with_lockout` calls threading the store. -/
def authChain (A : List String) (username password ip : String)
    (binder : String → String → Bool) : AuthDB → List Int → AuthDB
  | db, [] => db
  | db, t :: ts =>
      authChain A username password ip binder
        (authenticate_user_with_lockout A username password ip binder db t).db ts

/-- One failed attempt on existing rows: the result is a denial, the binder is
called once, the pair's count is incremented, and the lockout is set exactly
when the new count reaches 3. -/
lemma auth_fail_step (A : List String) (username password ip : String)
    (binder : String → String → Bool) (db : AuthDB) (now : Int)
    (u : AuthUser) (c : Nat) (ta : Int)
    (hauth : username ∈ A) (hbind : binder username password = false)
    (hu : db.users username = some u) (hnl : lockedOut u now = false)
    (ha : db.attempts (username, ip) = some ⟨c, ta⟩) :
    (authenticate_user_with_lockout A username password ip binder db now).ok
      = false ∧
    (authenticate_user_with_lockout A username password ip binder db now).binderCalls
      = 1 ∧
    (authenticate_user_with_lockout A username password ip binder db now).db.users
      username = some (if c + 1 ≥ 3 then ⟨some (now + 15 * 60)⟩ else u) ∧
    (authenticate_user_with_lockout A username password ip binder db now).db.attempts
      (username, ip) = some ⟨c + 1, now⟩ := by
  rw [authenticate_user_with_lockout]
  by_cases h3 : c + 1 ≥ 3 <;>
    simp [if_pos hauth, getOrCreateUser, hu, getOrCreateAttempt, ha, hbind, hnl, h3]

/-- One failed attempt when neither the user nor the attempt row exists yet:
both rows are created, the count becomes 1 and no lockout is set. -/
lemma auth_fail_fresh (A : List String) (username password ip : String)
    (binder : String → String → Bool) (db : AuthDB) (now : Int)
    (hauth : username ∈ A) (hbind : binder username password = false)
    (hu : db.users username = none)
    (ha : db.attempts (username, ip) = none) :
    (authenticate_user_with_lockout A username password ip binder db now).ok
      = false ∧
    (authenticate_user_with_lockout A username password ip binder db now).binderCalls
      = 1 ∧
    (authenticate_user_with_lockout A username password ip binder db now).db.users
      username = some ⟨none⟩ ∧
    (authenticate_user_with_lockout A username password ip binder db now).db.attempts
      (username, ip) = some ⟨1, now⟩ := by
  rw [authenticate_user_with_lockout]
  simp [if_pos hauth, getOrCreateUser, hu, getOrCreateAttempt, ha, hbind, lockedOut]

/-- A call while the stored lockout is still in the future: denial with zero
binder calls and a byte-identical store. -/
lemma auth_locked_step (A : List String) (username password ip : String)
    (binder : String → String → Bool) (db : AuthDB) (now : Int) (u : AuthUser)
    (hauth : username ∈ A) (hu : db.users username = some u)
    (hl : lockedOut u now = true) :
    authenticate_user_with_lockout A username password ip binder db now
      = ⟨false, db, 0⟩ := by
  rw [authenticate_user_with_lockout]
  simp only [if_pos hauth, getOrCreateUser, hu, hl, if_true]

/-- One successful attempt on existing rows: the lockout is cleared and the
pair's count is reset to 0. -/
lemma auth_success_step (A : List String) (username password ip : String)
    (binder : String → String → Bool) (db : AuthDB) (now : Int)
    (u : AuthUser) (c : Nat) (ta : Int)
    (hauth : username ∈ A) (hbind : binder username password = true)
    (hu : db.users username = some u) (hnl : lockedOut u now = false)
    (ha : db.attempts (username, ip) = some ⟨c, ta⟩) :
    (authenticate_user_with_lockout A username password ip binder db now).ok
      = true ∧
    (authenticate_user_with_lockout A username password ip binder db now).binderCalls
      = 1 ∧
    (authenticate_user_with_lockout A username password ip binder db now).db.users
      username = some ⟨none⟩ ∧
    (authenticate_user_with_lockout A username password ip binder db now).db.attempts
      (username, ip) = some ⟨0, now⟩ := by
  rw [authenticate_user_with_lockout]
  simp [if_pos hauth, getOrCreateUser, hu, getOrCreateAttempt, ha, hbind, hnl]

/-- Claim C2: starting from a store with neither a user row nor an attempt
row, three failed attempts at `t1, t2, t3` all return false and leave
`lockout_until = t3 + 15min`; a fourth call at `t4` before expiry returns
false, never invokes the binder, and leaves the store byte-identical. -/
theorem C2_three_failures_lock_account
    (A : List String) (username password ip : String)
    (binder : String → String → Bool) (db0 : AuthDB) (t1 t2 t3 t4 : Int)
    (hauth : username ∈ A)
    (hbind : binder username password = false)
    (hu0 : db0.users username = none)
    (ha0 : db0.attempts (username, ip) = none)
    (h4 : t4 < t3 + 15 * 60) :
    (authenticate_user_with_lockout A username password ip binder db0 t1).ok
      = false ∧
    (authenticate_user_with_lockout A username password ip binder
      (authChain A username password ip binder db0 [t1]) t2).ok = false ∧
    (authenticate_user_with_lockout A username password ip binder
      (authChain A username password ip binder db0 [t1, t2]) t3).ok = false ∧
    (authChain A username password ip binder db0 [t1, t2, t3]).users username
      = some ⟨some (t3 + 15 * 60)⟩ ∧
    authenticate_user_with_lockout A username password ip binder
      (authChain A username password ip binder db0 [t1, t2, t3]) t4
      = ⟨false, authChain A username password ip binder db0 [t1, t2, t3], 0⟩ := by
  have h1 := auth_fail_fresh A username password ip binder db0 t1 hauth hbind hu0 ha0
  have hc1 : authChain A username password ip binder db0 [t1]
      = (authenticate_user_with_lockout A username password ip binder db0 t1).db := by
    simp [authChain]
  have h2 := auth_fail_step A username password ip binder
    (authChain A username password ip binder db0 [t1]) t2 ⟨none⟩ 1 t1 hauth hbind
    (by rw [hc1]; exact h1.2.2.1) rfl (by rw [hc1]; exact h1.2.2.2)
  have hc2 : authChain A username password ip binder db0 [t1, t2]
      = (authenticate_user_with_lockout A username password ip binder
          (authChain A username password ip binder db0 [t1]) t2).db := by
    simp [authChain]
  have h2u : (authenticate_user_with_lockout A username password ip binder
      (authChain A username password ip binder db0 [t1]) t2).db.users username
      = some ⟨none⟩ := by
    simpa using h2.2.2.1
  have h3 := auth_fail_step A username password ip binder
    (authChain A username password ip binder db0 [t1, t2]) t3 ⟨none⟩ 2 t2 hauth hbind
    (by rw [hc2]; exact h2u) rfl (by rw [hc2]; exact h2.2.2.2)
  have hc3 : authChain A username password ip binder db0 [t1, t2, t3]
      = (authenticate_user_with_lockout A username password ip binder
          (authChain A username password ip binder db0 [t1, t2]) t3).db := by
    simp [authChain]
  have h3u : (authChain A username password ip binder db0 [t1, t2, t3]).users
      username = some ⟨some (t3 + 15 * 60)⟩ := by
    rw [hc3]
    simpa using h3.2.2.1
  have h4l := auth_locked_step A username password ip binder
    (authChain A username password ip binder db0 [t1, t2, t3]) t4
    ⟨some (t3 + 15 * 60)⟩ hauth h3u
    (by simp only [lockedOut, decide_eq_true_eq]; omega)
  exact ⟨h1.1, h2.1, h3.1, h3u, h4l⟩

/-- Concrete stores and binders for the lockout witnesses. -/
def dbC2 : AuthDB := ⟨fun _ => none, fun _ => none⟩

def binderDeny : String → String → Bool := fun _ _ => false

def binderAllow : String → String → Bool := fun _ _ => true

theorem C2_three_failures_lock_account_witness :
    (authChain ["bob"] "bob" "pw" "1.2.3.4" binderDeny dbC2 [0, 1, 2]).users "bob"
      = some ⟨some (2 + 15 * 60)⟩ ∧
    authenticate_user_with_lockout ["bob"] "bob" "pw" "1.2.3.4" binderDeny
      (authChain ["bob"] "bob" "pw" "1.2.3.4" binderDeny dbC2 [0, 1, 2]) 100
      = ⟨false, authChain ["bob"] "bob" "pw" "1.2.3.4" binderDeny dbC2 [0, 1, 2], 0⟩ :=
  ⟨(C2_three_failures_lock_account ["bob"] "bob" "pw" "1.2.3.4" binderDeny dbC2
      0 1 2 100 (by simp) rfl rfl rfl (by norm_num)).2.2.2.1,
   (C2_three_failures_lock_account ["bob"] "bob" "pw" "1.2.3.4" binderDeny dbC2
      0 1 2 100 (by simp) rfl rfl rfl (by norm_num)).2.2.2.2⟩

/-- Claim C8: a pair whose count already reached 3 keeps it across lockout
expiry: one further failure after `lockout_until` has passed pushes the count
above 3 and sets a fresh `lockout_until = now + 15min`, while a success resets
the count to 0 and clears the lockout. -/
theorem C8_count_persists_across_lockout_expiry
    (A : List String) (username password ip : String)
    (bf bs : String → String → Bool) (db : AuthDB) (now : Int)
    (lu : Int) (c : Nat) (ta : Int)
    (hauth : username ∈ A)
    (hbf : bf username password = false)
    (hbs : bs username password = true)
    (hu : db.users username = some ⟨some lu⟩)
    (hexp : lu ≤ now)
    (ha : db.attempts (username, ip) = some ⟨c, ta⟩)
    (hc : 3 ≤ c) :
    (authenticate_user_with_lockout A username password ip bf db now).ok = false ∧
    (authenticate_user_with_lockout A username password ip bf db now).db.attempts
      (username, ip) = some ⟨c + 1, now⟩ ∧
    3 < c + 1 ∧
    (authenticate_user_with_lockout A username password ip bf db now).db.users
      username = some ⟨some (now + 15 * 60)⟩ ∧
    (authenticate_user_with_lockout A username password ip bs db now).ok = true ∧
    (authenticate_user_with_lockout A username password ip bs db now).db.attempts
      (username, ip) = some ⟨0, now⟩ ∧
    (authenticate_user_with_lockout A username password ip bs db now).db.users
      username = some ⟨none⟩ := by
  have hnl : lockedOut ⟨some lu⟩ now = false := by
    simp only [lockedOut, decide_eq_false_iff_not]
    omega
  have hf := auth_fail_step A username password ip bf db now ⟨some lu⟩ c ta
    hauth hbf hu hnl ha
  have hs := auth_success_step A username password ip bs db now ⟨some lu⟩ c ta
    hauth hbs hu hnl ha
  refine ⟨hf.1, hf.2.2.2, by omega, ?_, hs.1, hs.2.2.2, hs.2.2.1⟩
  have h := hf.2.2.1
  rw [if_pos (by omega)] at h
  exact h

/-- Concrete store for the C8 witness: count already 3, lockout expired. -/
def dbC8 : AuthDB :=
  ⟨fun u => if u = "bob" then some ⟨some 50⟩ else none,
   fun k => if k = ("bob", "1.2.3.4") then some ⟨3, 40⟩ else none⟩

theorem C8_count_persists_across_lockout_expiry_witness :
    (authenticate_user_with_lockout ["bob"] "bob" "pw" "1.2.3.4" binderDeny dbC8
      60).db.attempts ("bob", "1.2.3.4") = some ⟨4, 60⟩ ∧
    (authenticate_user_with_lockout ["bob"] "bob" "pw" "1.2.3.4" binderDeny dbC8
      60).db.users "bob" = some ⟨some (60 + 15 * 60)⟩ ∧
    (authenticate_user_with_lockout ["bob"] "bob" "pw" "1.2.3.4" binderAllow dbC8
      60).db.attempts ("bob", "1.2.3.4") = some ⟨0, 60⟩ :=
  ⟨(C8_count_persists_across_lockout_expiry ["bob"] "bob" "pw" "1.2.3.4"
      binderDeny binderAllow dbC8 60 50 3 40 (by simp) rfl rfl (by simp [dbC8])
      (by norm_num) (by simp [dbC8]) (by norm_num)).2.1,
   (C8_count_persists_across_lockout_expiry ["bob"] "bob" "pw" "1.2.3.4"
      binderDeny binderAllow dbC8 60 50 3 40 (by simp) rfl rfl (by simp [dbC8])
      (by norm_num) (by simp [dbC8]) (by norm_num)).2.2.2.1,
   (C8_count_persists_across_lockout_expiry ["bob"] "bob" "pw" "1.2.3.4"
      binderDeny binderAllow dbC8 60 50 3 40 (by simp) rfl rfl (by simp [dbC8])
      (by norm_num) (by simp [dbC8]) (by norm_num)).2.2.2.2.2.1⟩

/-! ## Bearer-token validation with idle timeout (src/tokens.py)

The token table is modelled as a partial map from token strings to the user
row owning that token (`token` is unique).  Only the fields read and written
by `validate_and_touch_token` are kept. -/

structure TokenUser where
  token_issued_at : Option Int
  last_activity_at : Option Int
deriving DecidableEq

/-- The `user.last_activity_at or user.token_issued_at` baseline. -/
def baselineOf (u : TokenUser) : Option Int :=
  match u.last_activity_at with
  | some t => some t
  | none => u.token_issued_at

/-- `validate_and_touch_token(token, idle_hours, now)`: unknown token or
missing baseline is invalid; idle past `idle_hours` is invalid with no state
change; otherwise `last_activity_at` is set to `now` and the token is valid. -/
def validate_and_touch_token (db : String → Option TokenUser) (token : String)
    (idle_hours : Int) (now : Int) : Bool × (String → Option TokenUser) :=
  match db token with
  | none => (false, db)
  | some user =>
    match baselineOf user with
    | none => (false, db)
    | some last =>
      if now - last > idle_hours * 3600 then (false, db)
      else
        (true, Function.update db token (some { user with last_activity_at := some now }))

/-- Claim C4: with baseline `last_activity_at` if present else
`token_issued_at`, validation past the idle bound returns invalid and leaves
the store (hence `last_activity_at`) untouched; a token with no baseline is
invalid; within the bound the token is valid and `last_activity_at` becomes
`now`. -/
theorem C4_idle_timeout_never_refreshes (db : String → Option TokenUser)
    (token : String) (idle_hours now : Int) (user : TokenUser)
    (hdb : db token = some user) :
    (baselineOf user = none →
      validate_and_touch_token db token idle_hours now = (false, db)) ∧
    (∀ b : Int, baselineOf user = some b → idle_hours * 3600 < now - b →
      validate_and_touch_token db token idle_hours now = (false, db)) ∧
    (∀ b : Int, baselineOf user = some b → now - b ≤ idle_hours * 3600 →
      validate_and_touch_token db token idle_hours now =
        (true, Function.update db token
          (some { user with last_activity_at := some now }))) := by
  refine ⟨?_, ?_, ?_⟩
  · intro hb
    rw [validate_and_touch_token]
    simp only [hdb, hb]
  · intro b hb hidle
    rw [validate_and_touch_token]
    simp only [hdb, hb]
    rw [if_pos (by omega)]
  · intro b hb hidle
    rw [validate_and_touch_token]
    simp only [hdb, hb]
    rw [if_neg (by omega)]

/-- Concrete store for the C4 witness: a token issued at time 0, never used,
checked at `12h + 1s` (invalid) and a fresh one checked at `12h` (valid). -/
def dbC4 : String → Option TokenUser :=
  fun t => if t = "tok" then some ⟨some 0, none⟩ else none

theorem C4_idle_timeout_never_refreshes_witness :
    validate_and_touch_token dbC4 "tok" 12 43201 = (false, dbC4) ∧
    validate_and_touch_token dbC4 "tok" 12 43200 =
      (true, Function.update dbC4 "tok" (some ⟨some 0, some 43200⟩)) :=
  ⟨(C4_idle_timeout_never_refreshes dbC4 "tok" 12 43201 ⟨some 0, none⟩
      (by simp [dbC4])).2.1 0 rfl (by norm_num),
   (C4_idle_timeout_never_refreshes dbC4 "tok" 12 43200 ⟨some 0, none⟩
      (by simp [dbC4])).2.2 0 rfl (by norm_num)⟩

/-! ## Tool invocation gatekeeper (src/tools.py)

Executor output is modelled as a character list (Python string slicing acts
on characters); the fallible executor returns `Except`.  The audit table
delta of one call is the list of rows the call creates (the source creates
exactly one row and updates it in place). -/

structure ToolsConfig where
  confirmation_required_tools : List String

structure InvRow where
  chat_message_id : Nat
  tool_name : String
  server_name : String
  was_explicit : Bool
  user_confirmed : Bool
  invocation_time : Int
  output_text : Option (List Char)
  success : Bool
  error_message : Option String
deriving DecidableEq

structure ToolResult where
  output : Option (List Char)
  audit : List InvRow
deriving DecidableEq

/-- The `need_confirmation` decision of `process_tool_invocation`. -/
def need_confirmation (cfg : ToolsConfig) (tool_name : String)
    (is_llm_request was_explicit : Bool) : Bool :=
  cfg.confirmation_required_tools.contains tool_name && is_llm_request
    && !was_explicit

/-- The `output[:max_output] if output and len(output) > max_output else
output` truncation. -/
def truncate_output (output : List Char) (max_output : Nat) : List Char :=
  if output ≠ [] ∧ output.length > max_output then output.take max_output
  else output

/-- `process_tool_invocation`: compute the confirmation requirement, record
one audit row, deny without running the executor when confirmation is
required and not granted, otherwise run the executor and store the truncated
output on success or the error text on failure. -/
def process_tool_invocation (cfg : ToolsConfig)
    (tool_name server_name bearer_token : String)
    (was_explicit is_llm_request : Bool) (user_confirmed : Option Bool)
    (chat_message_id : Nat) (now : Int)
    (call_tool : String → String → String → Except String (List Char))
    (max_output : Nat) : ToolResult :=
  let allowed :=
    if need_confirmation cfg tool_name is_llm_request was_explicit then
      user_confirmed.getD false
    else true
  let inv0 : InvRow :=
    { chat_message_id := chat_message_id, tool_name := tool_name,
      server_name := server_name, was_explicit := was_explicit,
      user_confirmed := user_confirmed.getD false, invocation_time := now,
      output_text := none, success := false, error_message := none }
  if !allowed then
    let deniedMsg : Option String :=
      some "User confirmation required and not granted"
    let row : InvRow :=
      { inv0 with success := false, output_text := none, error_message := deniedMsg }
    { output := none, audit := [row] }
  else
    match call_tool tool_name server_name bearer_token with
    | Except.ok output =>
      let truncated := truncate_output output max_output
      let row : InvRow :=
        { inv0 with success := true, output_text := some truncated, error_message := none }
      { output := some truncated, audit := [row] }
    | Except.error e =>
      let row : InvRow := { inv0 with success := false, error_message := some e }
      { output := none, audit := [row] }

/-- Claim C3: confirmation is required exactly when the tool is in the
policy list, the invocation is an LLM request, and it was not explicitly
tagged; an explicit tag on a confirmation-required tool executes without
confirmation; an LLM-recommended invocation of it without granted
confirmation is denied independently of the executor, with exactly one audit
row carrying `success = false` and a null output. -/
theorem C3_confirmation_gatekeeper (cfg : ToolsConfig)
    (tool_name server_name bearer_token : String) (chat_message_id : Nat)
    (now : Int) (max_output : Nat) (uc : Option Bool)
    (hreq : cfg.confirmation_required_tools.contains tool_name = true)
    (hng : uc.getD false = false) :
    (∀ (t : String) (llm ex : Bool),
      need_confirmation cfg t llm ex = true ↔
        (t ∈ cfg.confirmation_required_tools ∧ llm = true ∧ ex = false)) ∧
    (∀ (llm : Bool) (output : List Char),
      process_tool_invocation cfg tool_name server_name bearer_token true llm uc
        chat_message_id now (fun _ _ _ => Except.ok output) max_output =
      { output := some (truncate_output output max_output),
        audit := [⟨chat_message_id, tool_name, server_name, true, uc.getD false,
          now, some (truncate_output output max_output), true, none⟩] }) ∧
    (∀ ct : String → String → String → Except String (List Char),
      process_tool_invocation cfg tool_name server_name bearer_token false true
        uc chat_message_id now ct max_output =
      { output := none,
        audit := [⟨chat_message_id, tool_name, server_name, false, uc.getD false,
          now, none, false,
          some "User confirmation required and not granted"⟩] }) := by
  have hmem : tool_name ∈ cfg.confirmation_required_tools :=
    List.elem_iff.mp hreq
  refine ⟨?_, ?_, ?_⟩
  · intro t llm ex
    simp [need_confirmation, List.elem_iff, and_assoc]
  · intro llm output
    rw [process_tool_invocation]
    simp [need_confirmation]
  · intro ct
    rw [process_tool_invocation]
    simp [need_confirmation, hmem, hng]

/-- Concrete gatekeeper scenario for C3: the policy requires confirmation for
`delete_file`, and no confirmation decision was supplied. -/
def cfgC3 : ToolsConfig := ⟨["delete_file"]⟩

theorem C3_confirmation_gatekeeper_witness :
    process_tool_invocation cfgC3 "delete_file" "srv" "tok" true true none 7 0
      (fun _ _ _ => Except.ok ['h', 'i']) 100000 =
    { output := some (truncate_output ['h', 'i'] 100000),
      audit := [⟨7, "delete_file", "srv", true, false, 0,
        some (truncate_output ['h', 'i'] 100000), true, none⟩] } ∧
    process_tool_invocation cfgC3 "delete_file" "srv" "tok" false true none 7 0
      (fun _ _ _ => Except.ok ['h', 'i']) 100000 =
    { output := none,
      audit := [⟨7, "delete_file", "srv", false, false, 0, none, false,
        some "User confirmation required and not granted"⟩] } :=
  ⟨(C3_confirmation_gatekeeper cfgC3 "delete_file" "srv" "tok" 7 0 100000 none
      (by simp [cfgC3]) rfl).2.1 true ['h', 'i'],
   (C3_confirmation_gatekeeper cfgC3 "delete_file" "srv" "tok" 7 0 100000 none
      (by simp [cfgC3]) rfl).2.2 (fun _ _ _ => Except.ok ['h', 'i'])⟩

/-- Claim C7: executor output longer than `max_output` is stored and returned
cut to exactly `max_output` characters; output at or under the limit is
stored and returned unchanged. -/
theorem C7_output_truncation (cfg : ToolsConfig)
    (tool_name server_name bearer_token : String)
    (was_explicit is_llm_request : Bool) (chat_message_id : Nat) (now : Int)
    (max_output : Nat) (output : List Char) :
    (output.length > max_output →
      process_tool_invocation cfg tool_name server_name bearer_token
        was_explicit is_llm_request (some true) chat_message_id now
        (fun _ _ _ => Except.ok output) max_output =
      { output := some (output.take max_output),
        audit := [⟨chat_message_id, tool_name, server_name, was_explicit, true,
          now, some (output.take max_output), true, none⟩] } ∧
      (output.take max_output).length = max_output) ∧
    (output.length ≤ max_output →
      process_tool_invocation cfg tool_name server_name bearer_token
        was_explicit is_llm_request (some true) chat_message_id now
        (fun _ _ _ => Except.ok output) max_output =
      { output := some output,
        audit := [⟨chat_message_id, tool_name, server_name, was_explicit, true,
          now, some output, true, none⟩] }) := by
  constructor
  · intro h
    have hne : output ≠ [] := by
      intro hnil
      rw [hnil] at h
      simp at h
    have htr : truncate_output output max_output = output.take max_output := by
      rw [truncate_output, if_pos ⟨hne, h⟩]
    constructor
    · rw [process_tool_invocation]
      simp [htr]
    · rw [List.length_take]
      omega
  · intro h
    have htr : truncate_output output max_output = output := by
      rw [truncate_output, if_neg]
      intro hcond
      omega
    rw [process_tool_invocation]
    simp [htr]

theorem C7_output_truncation_witness :
    (process_tool_invocation ⟨[]⟩ "t" "s" "b" false false (some true) 1 0
      (fun _ _ _ => Except.ok ['a', 'b', 'c']) 2 =
     { output := some (['a', 'b', 'c'].take 2),
       audit := [⟨1, "t", "s", false, true, 0, some (['a', 'b', 'c'].take 2),
         true, none⟩] } ∧
     (['a', 'b', 'c'].take 2).length = 2) ∧
    process_tool_invocation ⟨[]⟩ "t" "s" "b" false false (some true) 1 0
      (fun _ _ _ => Except.ok ['a', 'b', 'c']) 5 =
    { output := some ['a', 'b', 'c'],
      audit := [⟨1, "t", "s", false, true, 0, some ['a', 'b', 'c'], true,
        none⟩] } :=
  ⟨(C7_output_truncation ⟨[]⟩ "t" "s" "b" false false 1 0 2
      ['a', 'b', 'c']).1 (by decide),
   (C7_output_truncation ⟨[]⟩ "t" "s" "b" false false 1 0 5
      ['a', 'b', 'c']).2 (by decide)⟩

/-- Claim C10: supplying no confirmation decision (`user_confirmed = None`)
behaves and audits exactly like an explicit refusal: the whole result is
identical to the `some false` call and every audit row records
`user_confirmed = false`. -/
theorem C10_none_confirmation_audited_as_false (cfg : ToolsConfig)
    (tool_name server_name bearer_token : String)
    (was_explicit is_llm_request : Bool) (chat_message_id : Nat) (now : Int)
    (ct : String → String → String → Except String (List Char))
    (max_output : Nat) :
    process_tool_invocation cfg tool_name server_name bearer_token was_explicit
      is_llm_request none chat_message_id now ct max_output =
    process_tool_invocation cfg tool_name server_name bearer_token was_explicit
      is_llm_request (some false) chat_message_id now ct max_output ∧
    ∀ row ∈ (process_tool_invocation cfg tool_name server_name bearer_token
      was_explicit is_llm_request none chat_message_id now ct
      max_output).audit, row.user_confirmed = false := by
  constructor
  · rfl
  · intro row hrow
    rw [process_tool_invocation] at hrow
    by_cases hnc : need_confirmation cfg tool_name is_llm_request was_explicit = true
    · simp [hnc] at hrow
      simp [hrow]
    · simp only [hnc] at hrow
      cases hct : ct tool_name server_name bearer_token with
      | ok output =>
        simp [hnc, hct] at hrow
        simp [hrow]
      | error e =>
        simp [hnc, hct] at hrow
        simp [hrow]

theorem C10_none_confirmation_audited_as_false_witness :
    process_tool_invocation ⟨["delete_file"]⟩ "delete_file" "srv" "tok" false
      true none 7 0 (fun _ _ _ => Except.ok ['h']) 10 =
    process_tool_invocation ⟨["delete_file"]⟩ "delete_file" "srv" "tok" false
      true (some false) 7 0 (fun _ _ _ => Except.ok ['h']) 10 :=
  (C10_none_confirmation_audited_as_false ⟨["delete_file"]⟩ "delete_file" "srv"
    "tok" false true 7 0 (fun _ _ _ => Except.ok ['h']) 10).1

/-! ## LLM call wrapper (src/llm.py)

`LLMRunner.run_llm` counts one rate-limiter operation, discards its boolean
result, then forwards the input to the injected caller.  An empty
`recommended_tool` is normalised to `None` (`rec_tool or None`). -/

structure CallerResult where
  text : String
  recommended_tool : Option String

structure LLMOut where
  text : String
  recommended_tool : Option String
deriving DecidableEq

/-- `LLMRunner.run_llm(user_input)`. -/
def run_llm (username : String) (rl : RateLimiter)
    (caller : String → CallerResult) (user_input : String) (now : Int) :
    LLMOut × RateLimiter :=
  let rl1 := (record_operation rl username now).2
  let result := caller user_input
  let rec_tool :=
    match result.recommended_tool with
    | some s => if s = "" then none else some s
    | none => none
  (⟨result.text, rec_tool⟩, rl1)

/-- Claim C9: `run_llm` records one rate-limiter operation but ignores its
boolean result — the caller's text is returned unconditionally, in particular
when `record_operation` returns false. -/
theorem C9_rate_limit_result_ignored (username : String) (rl : RateLimiter)
    (caller : String → CallerResult) (user_input : String) (now : Int) :
    (run_llm username rl caller user_input now).1.text
      = (caller user_input).text ∧
    (run_llm username rl caller user_input now).2
      = (record_operation rl username now).2 ∧
    ((record_operation rl username now).1 = false →
      (run_llm username rl caller user_input now).1.text
        = (caller user_input).text) :=
  ⟨rfl, rfl, fun _ => rfl⟩

/-- Concrete instance for C9: a degraded limiter, whose `record_operation`
returns false, still yields the caller's text. -/
def rlC9 : RateLimiter := ⟨2, 60, 3, true, fun _ => [], fun _ => 0⟩

def callerC9 : String → CallerResult := fun _ => ⟨"hello", none⟩

theorem C9_rate_limit_result_ignored_witness :
    (run_llm "alice" rlC9 callerC9 "hi" 0).1.text = (callerC9 "hi").text :=
  (C9_rate_limit_result_ignored "alice" rlC9 callerC9 "hi" 0).2.2 rfl

end ChatAgent
